import Mathlib

/-!
Shallow embedding of `scepter.py` (SCEPTER: MFA-provider reconnaissance).

Character data (URLs, page content, script text, error messages) is modelled
as `List Char`.  The external regular-expression matcher (`re.search` with
`re.IGNORECASE`) is a parameter `rs : Str → Str → Bool` (pattern, input);
the rendering engine (Playwright) is modelled by an `EngineBehavior` record
describing what the engine does for one target, following the capability
interface the session consumes (navigation may time out or fail, each script
fetch independently succeeds with a text or fails with a message).
-/

namespace Scepter

abbrev Str := List Char

/-- The characters CPython's `urllib.parse` accepts inside a URL scheme
(`scheme_chars = letters, digits, '+', '-', '.'`). -/
def isSchemeChar (c : Char) : Bool :=
  c.isAlpha || c.isDigit || c = '+' || c = '-' || c = '.'

/-- Split a string at its first `':'`: `some (before, after)` when a colon
occurs, `none` otherwise.  Mirrors `url.find(':')` in `urllib.parse.urlsplit`. -/
def splitAtColon : Str → Option (Str × Str)
  | [] => none
  | c :: rest =>
    if c = ':' then some ([], rest)
    else
      match splitAtColon rest with
      | some (b, a) => some (c :: b, a)
      | none => none

/-- The scheme `urllib.parse.urlparse(url).scheme` extracts: the part before
the first `':'`, lowercased, provided the colon is not the first character,
the first character is an (ASCII) letter, and every character before the
colon is a scheme character; otherwise the empty string. -/
def url_scheme (url : Str) : Str :=
  match splitAtColon url with
  | none => []
  | some (before, _) =>
    match before with
    | [] => []
    | c0 :: _ =>
      if c0.isAlpha && before.all isSchemeChar then before.map Char.toLower
      else []

/-- Function `ensure_url_scheme` (scepter.py lines 32-36): prepend `https://` when
`urlparse(url).scheme` is empty, otherwise return the URL unchanged. -/
def ensure_url_scheme (url : Str) : Str :=
  if url_scheme url = [] then "https://".toList ++ url else url

/-- A string "carries a scheme" in the sense of `urlparse`: it starts with a
non-empty run of scheme characters, the first of which is a letter, followed
by a `':'`. -/
def HasScheme (u : Str) : Prop :=
  ∃ s rest, u = s ++ ':' :: rest ∧
    (∃ c cs, s = c :: cs ∧ c.isAlpha = true) ∧ s.all isSchemeChar = true

/-- The inner loop of `analyze_content`: try the provider's patterns in list
order against `content` or `url`; `break` (stop) at the first match. -/
def provider_matches (rs : Str → Str → Bool) (patterns : List Str)
    (content url : Str) : Bool :=
  match patterns with
  | [] => false
  | p :: rest =>
    if rs p content || rs p url then true
    else provider_matches rs rest content url

/-- Function `analyze_content` (lines 45-52): for each provider in the catalog, add its name to the
detected set when one of its patterns matches the content or the source URL.
The Python `set` is modelled by the list of added provider names. -/
def analyze_content (rs : Str → Str → Bool) (catalog : List (String × List Str))
    (content url : Str) : List String :=
  match catalog with
  | [] => []
  | (prov, pats) :: rest =>
    if provider_matches rs pats content url then
      prov :: analyze_content rs rest content url
    else analyze_content rs rest content url

/-- Whether the first list is a prefix of the second. -/
def prefix_match : Str → Str → Bool
  | [], _ => true
  | _ :: _, [] => false
  | a :: as, b :: bs => (a == b) && prefix_match as bs

/-- Whether the first list occurs contiguously inside the second. -/
def has_substr (pat : Str) : Str → Bool
  | [] => prefix_match pat []
  | c :: rest => prefix_match pat (c :: rest) || has_substr pat rest

/-- A concrete case-insensitive substring matcher standing in for `re.search`
with `re.IGNORECASE` on literal patterns, used to exercise the theorems. -/
def substr_search (pattern s : Str) : Bool :=
  has_substr (pattern.map Char.toLower) (s.map Char.toLower)

/-- Wrapper for `analyze_content` as it reads the module-level `MFA_PROVIDERS` dictionary:
the catalog is threaded as state and handed back alongside the result (the
function only reads it). -/
def analyze_content_run (rs : Str → Str → Bool) (catalog : List (String × List Str))
    (content url : Str) : List String × List (String × List Str) :=
  (analyze_content rs catalog content url, catalog)

/-- The `debug_info` dictionary: `js_urls` and `errors` always present,
`status`/`headers` keys only added on the verbose path. -/
structure DebugInfo where
  status : Option Nat
  headers : Option (List (Str × Str))
  js_urls : List Str
  errors : List Str
deriving DecidableEq

/-- Outcome of `page.goto(url, wait_until='networkidle', timeout=30000)`. -/
inductive NavResult
  | timeout : NavResult
  | failure : Str → NavResult
  | success : Nat → List (Str × Str) → NavResult
deriving DecidableEq

/-- What the rendering engine does for one target. -/
structure EngineBehavior where
  newContextOk : Bool
  nav : NavResult
  content : Str
  jsUrls : List Str
  fetch : Str → Except Str Str

def fetch_err_msg (js e : Str) : Str :=
  "Error fetching ".toList ++ js ++ ": ".toList ++ e

def timeout_err_msg (url : Str) : Str :=
  "Timeout error while processing ".toList ++ url

def proc_err_msg (url e : Str) : Str :=
  "Error processing ".toList ++ url ++ ": ".toList ++ e

/-- The `UnboundLocalError` message raised by `finally: await context.close()`
when `context` was never assigned. -/
def unbound_local_msg : Str :=
  "cannot access local variable context".toList

/-- Python `set.update`: add the elements of `t` not already present in `s`
(the detected-provider set is modelled by its insertion-ordered list). -/
def set_update (s t : List String) : List String :=
  s ++ t.filter (fun x => decide (x ∉ s))

/-- The `for js_url in js_urls` loop (lines 73-82): each fetch is attempted
under its own `try`; on success the script text is analyzed and unioned into
the detected set (and the URL recorded when verbose); on failure a warning is
logged and the error message appended to `errors` only when verbose.
Returns (detected set, debug js_urls, debug errors). -/
def process_js (rs : Str → Str → Bool) (catalog : List (String × List Str))
    (fetch : Str → Except Str Str) (verbose : Bool) :
    List Str → List String → List Str → List Str →
      List String × List Str × List Str
  | [], detected, jsAcc, errAcc => (detected, jsAcc, errAcc)
  | js :: rest, detected, jsAcc, errAcc =>
    match fetch js with
    | Except.ok txt =>
      process_js rs catalog fetch verbose rest
        (set_update detected (analyze_content rs catalog txt js))
        (if verbose then jsAcc ++ [js] else jsAcc) errAcc
    | Except.error e =>
      process_js rs catalog fetch verbose rest detected jsAcc
        (if verbose then errAcc ++ [fetch_err_msg js e] else errAcc)

/-- Function `process_url` (lines 54-94).  The result is `Except`: the `Except.error`
branch is the one exit where the function itself raises — when
`browser.new_context` fails, the `except` clause records the error but the
`finally` block then evaluates `context.close()` with `context` unbound,
so an `UnboundLocalError` escapes and the outcome tuple is never returned. -/
def process_url (rs : Str → Str → Bool) (catalog : List (String × List Str))
    (beh : EngineBehavior) (verbose : Bool) (url0 : Str) :
    Except Str (Str × List String × DebugInfo) :=
  let url := ensure_url_scheme url0
  if beh.newContextOk then
    match beh.nav with
    | NavResult.timeout =>
      Except.ok (url, [], ⟨none, none, [], [timeout_err_msg url]⟩)
    | NavResult.failure e =>
      Except.ok (url, [], ⟨none, none, [], [proc_err_msg url e]⟩)
    | NavResult.success st hd =>
      let detected0 := set_update [] (analyze_content rs catalog beh.content url)
      let res := process_js rs catalog beh.fetch verbose beh.jsUrls detected0 [] []
      Except.ok (url, res.1,
        ⟨if verbose then some st else none,
         if verbose then some hd else none,
         res.2.1, res.2.2⟩)
  else
    Except.error unbound_local_msg

def providers_of (r : Except Str (Str × List String × DebugInfo)) : List String :=
  match r with
  | Except.ok res => res.2.1
  | Except.error _ => []

def debug_of (r : Except Str (Str × List String × DebugInfo)) : DebugInfo :=
  match r with
  | Except.ok res => res.2.2
  | Except.error _ => ⟨none, none, [], []⟩

/-- Status column of the text report (line 118): `"Success"` iff `errors`
is empty. -/
def report_status (dbg : DebugInfo) : String :=
  if dbg.errors.isEmpty then "Success" else "Failed"

/-! ## Orchestrator and report (`main`, scepter.py lines 96-121) -/

/-- Line 103: one `process_url` task per input URL, in input order. -/
def main_results (rs : Str → Str → Bool) (catalog : List (String × List Str))
    (targets : List (Str × EngineBehavior)) (verbose : Bool) :
    List (Except Str (Str × List String × DebugInfo)) :=
  targets.map (fun t => process_url rs catalog t.2 verbose t.1)

/-- Model of `asyncio.gather` (line 104): the list of outcome tuples when every task
returns, otherwise the propagated exception. -/
def gather_results : List (Except Str (Str × List String × DebugInfo)) →
    Except Str (List (Str × List String × DebugInfo))
  | [] => Except.ok []
  | Except.error e :: _ => Except.error e
  | Except.ok r :: rest => (gather_results rest).map (fun l => r :: l)

/-- Python dict assignment `d[k] = v`: overwrite in place when the key is
present, else append the binding. -/
def dict_insert {β : Type} (d : List (Str × β)) (k : Str) (v : β) : List (Str × β) :=
  if d.any (fun p => decide (p.1 = k)) then
    d.map (fun p => if p.1 = k then (k, v) else p)
  else d ++ [(k, v)]

/-- A dict built by inserting the pairs left to right (dict comprehension). -/
def dict_of {β : Type} (l : List (Str × β)) : List (Str × β) :=
  l.foldl (fun d p => dict_insert d p.1 p.2) []

/-- Lines 108-109: `json_results = {url: {...} for url, providers, debug_info
in results}` — a dict keyed by the (normalized) URL each task returned. -/
def json_report (results : List (Str × List String × DebugInfo)) :
    List (Str × (List String × DebugInfo)) :=
  dict_of results

/-- Lines 117-119: one table row per result tuple: URL, comma-joined
providers or `"None"`, and the Status column. -/
def table_rows (results : List (Str × List String × DebugInfo)) :
    List (Str × String × String) :=
  results.map (fun r =>
    (r.1,
     if r.2.1.isEmpty then "None" else String.intercalate ", " r.2.1,
     report_status r.2.2))

/-- The message a script URL contributes to `errors`, when its fetch fails. -/
def fetch_err_of (fetch : Str → Except Str Str) (js : Str) : Option Str :=
  match fetch js with
  | Except.error e => some (fetch_err_msg js e)
  | Except.ok _ => none

/-- A target whose page loads, whose content mentions Duo, and whose two
scripts are a failing fetch followed by a successful fetch mentioning Okta. -/
def mixed_fetch_behavior : EngineBehavior where
  newContextOk := true
  nav := NavResult.success 200 []
  content := "please sign in with duo push".toList
  jsUrls := ["https://cdn.example/broken.js".toList, "https://cdn.example/ok.js".toList]
  fetch := fun js =>
    if js = "https://cdn.example/ok.js".toList then
      Except.ok "window.OktaSignIn = true;".toList
    else Except.error "net::ERR_FAILED".toList

def duo_okta_catalog : List (String × List Str) :=
  [("Duo", ["duo".toList]), ("Okta", ["okta".toList])]

/-- A target with a successful page load and a single script whose fetch
fails. -/
def one_bad_fetch_behavior : EngineBehavior where
  newContextOk := true
  nav := NavResult.success 200 []
  content := []
  jsUrls := ["https://cdn.example/a.js".toList]
  fetch := fun _ => Except.error "net::ERR_FAILED".toList

/-- A target that loads an empty page with no scripts. -/
def ok_empty_behavior : EngineBehavior where
  newContextOk := true
  nav := NavResult.success 200 []
  content := []
  jsUrls := []
  fetch := fun _ => Except.error []

/-- The same input URL given twice. -/
def dup_targets : List (Str × EngineBehavior) :=
  [("example.com".toList, ok_empty_behavior),
   ("example.com".toList, ok_empty_behavior)]

/-- The JSON report of a run: the dict built from the gathered outcomes
(lines 104 and 108-109). -/
def json_report_of (rs : Str → Str → Bool) (catalog : List (String × List Str))
    (targets : List (Str × EngineBehavior)) (verbose : Bool) :
    Except Str (List (Str × (List String × DebugInfo))) :=
  (gather_results (main_results rs catalog targets verbose)).map json_report

def json_report_size (r : Except Str (List (Str × (List String × DebugInfo)))) : Nat :=
  match r with
  | Except.ok l => l.length
  | Except.error _ => 0

/-! ## Theorems -/

theorem splitAtColon_eq_some {u b a : Str} (h : splitAtColon u = some (b, a)) :
    u = b ++ ':' :: a ∧ ':' ∉ b := by
  induction u generalizing b a with
  | nil => simp [splitAtColon] at h
  | cons c rest ih =>
    by_cases hc : c = ':'
    · subst hc
      simp [splitAtColon] at h
      obtain ⟨hb, ha⟩ := h
      subst hb; subst ha
      simp
    · simp [splitAtColon, hc] at h
      match hrec : splitAtColon rest with
      | none => rw [hrec] at h; simp at h
      | some (b', a') =>
        rw [hrec] at h
        simp at h
        obtain ⟨hb, ha⟩ := h
        obtain ⟨hu, hnb⟩ := ih hrec
        subst hb; subst ha; subst hu
        constructor
        · simp
        · intro hmem
          rcases List.mem_cons.mp hmem with h1 | h2
          · exact hc h1.symm
          · exact hnb h2

theorem splitAtColon_append (s rest : Str) (hs : ':' ∉ s) :
    splitAtColon (s ++ ':' :: rest) = some (s, rest) := by
  induction s with
  | nil => simp [splitAtColon]
  | cons c cs ih =>
    have hc : ¬ (c = ':') := fun h => hs (h ▸ List.mem_cons_self c cs)
    have hcs : ':' ∉ cs := fun h => hs (List.mem_cons_of_mem c h)
    simp [splitAtColon, hc, ih hcs]

theorem schemeChar_ne_colon {c : Char} (h : isSchemeChar c = true) : ¬ (c = ':') := by
  intro hc
  subst hc
  simp [isSchemeChar, Char.isAlpha, Char.isDigit, Char.isUpper, Char.isLower] at h

theorem url_scheme_ne_nil_iff (u : Str) : url_scheme u ≠ [] ↔ HasScheme u := by
  constructor
  · intro h
    unfold url_scheme at h
    match hsplit : splitAtColon u with
    | none => rw [hsplit] at h; simp at h
    | some (before, after) =>
      rw [hsplit] at h
      match hb : before with
      | [] => simp at h
      | c0 :: cs =>
        simp only at h
        simp at h
        obtain ⟨hu, _⟩ := splitAtColon_eq_some hsplit
        refine ⟨c0 :: cs, after, hu, ⟨c0, cs, rfl, h.1⟩, List.all_eq_true.mpr ?_⟩
        intro x hx
        rcases List.mem_cons.mp hx with rfl | hx'
        · exact h.2.1
        · exact h.2.2 x hx'
  · rintro ⟨s, rest, hu, ⟨c, cs, hs, halpha⟩, hall⟩
    subst hu; subst hs
    have hnotin : ':' ∉ c :: cs := by
      intro hmem
      have := List.all_eq_true.mp hall _ hmem
      exact schemeChar_ne_colon this rfl
    unfold url_scheme
    rw [splitAtColon_append _ _ hnotin]
    simp only [halpha, hall, Bool.and_self, if_pos]
    simp

/-- C7: `ensure_url_scheme` prepends `https://` exactly when the URL lacks a
scheme, and passes scheme-qualified URLs through unchanged; "carrying a
scheme" is characterized independently of the parsing code. -/
theorem ensure_url_scheme_spec (u : Str) :
    (¬ HasScheme u → ensure_url_scheme u = "https://".toList ++ u) ∧
    (HasScheme u → ensure_url_scheme u = u) ∧
    (url_scheme u ≠ [] ↔ HasScheme u) := by
  refine ⟨?_, ?_, url_scheme_ne_nil_iff u⟩
  · intro h
    have : url_scheme u = [] := by
      by_contra hne
      exact h ((url_scheme_ne_nil_iff u).mp hne)
    simp [ensure_url_scheme, this]
  · intro h
    have : url_scheme u ≠ [] := (url_scheme_ne_nil_iff u).mpr h
    simp [ensure_url_scheme, this]

theorem ensure_url_scheme_spec_witness :
    ensure_url_scheme "example.com/login".toList =
      "https://".toList ++ "example.com/login".toList ∧
    ensure_url_scheme "http://example.com".toList = "http://example.com".toList := by
  constructor
  · exact (ensure_url_scheme_spec _).1 (by
      intro h
      have := ((ensure_url_scheme_spec "example.com/login".toList).2.2).mpr h
      exact this (by decide))
  · exact (ensure_url_scheme_spec _).2.1 (by
      exact (url_scheme_ne_nil_iff _).mp (by decide))

/-- C10: URL-scheme normalization is idempotent. -/
theorem ensure_url_scheme_idem (u : Str) :
    ensure_url_scheme (ensure_url_scheme u) = ensure_url_scheme u := by
  by_cases h : url_scheme u = []
  · have h1 : ensure_url_scheme u = "https://".toList ++ u := by
      simp [ensure_url_scheme, h]
    rw [h1]
    have hscheme : url_scheme ("https://".toList ++ u) ≠ [] := by
      have : ("https://".toList ++ u) =
          ('h' :: 't' :: 't' :: 'p' :: 's' :: []) ++ ':' :: ('/' :: '/' :: u) := by
        simp [String.toList]
      rw [this]
      unfold url_scheme
      rw [splitAtColon_append _ _ (by decide)]
      simp
      decide
    unfold ensure_url_scheme
    rw [if_neg hscheme]
  · have h1 : ensure_url_scheme u = u := by simp [ensure_url_scheme, h]
    rw [h1, h1]

/-! ## Content Analyzer (`analyze_content`, scepter.py lines 45-52)

The signature catalog `MFA_PROVIDERS` is a mapping provider-name → list of
pattern strings; dict iteration order is modelled by a list of pairs.  The
case-insensitive regex matcher `re.search(pattern, s, re.IGNORECASE)` is the
abstract parameter `rs pattern s`. -/

theorem provider_matches_iff (rs : Str → Str → Bool) (patterns : List Str)
    (content url : Str) :
    provider_matches rs patterns content url = true ↔
      ∃ p ∈ patterns, (rs p content || rs p url) = true := by
  induction patterns with
  | nil => simp [provider_matches]
  | cons p rest ih =>
    unfold provider_matches
    by_cases hp : (rs p content || rs p url) = true
    · simp [hp]
      exact Or.inl (by simpa using hp)
    · rw [if_neg hp, ih]
      constructor
      · rintro ⟨q, hq, hm⟩
        exact ⟨q, List.mem_cons_of_mem p hq, hm⟩
      · rintro ⟨q, hq, hm⟩
        rcases List.mem_cons.mp hq with rfl | hq'
        · exact absurd hm hp
        · exact ⟨q, hq', hm⟩

theorem analyze_content_eq_filter (rs : Str → Str → Bool)
    (catalog : List (String × List Str)) (content url : Str) :
    analyze_content rs catalog content url =
      (catalog.filter fun pr => provider_matches rs pr.2 content url).map Prod.fst := by
  induction catalog with
  | nil => rfl
  | cons pr rest ih =>
    obtain ⟨prov, pats⟩ := pr
    unfold analyze_content
    by_cases hm : provider_matches rs pats content url = true
    · simp [hm, List.filter_cons, ih]
    · simp only [Bool.not_eq_true] at hm
      simp [hm, List.filter_cons, ih]

theorem mem_analyze_content (rs : Str → Str → Bool)
    (catalog : List (String × List Str)) (content url : Str) (prov : String) :
    prov ∈ analyze_content rs catalog content url ↔
      ∃ pats, (prov, pats) ∈ catalog ∧
        ∃ p ∈ pats, (rs p content || rs p url) = true := by
  induction catalog with
  | nil => simp [analyze_content]
  | cons pr rest ih =>
    obtain ⟨prov', pats'⟩ := pr
    unfold analyze_content
    by_cases hm : provider_matches rs pats' content url = true
    · rw [if_pos hm]
      constructor
      · intro h
        rcases List.mem_cons.mp h with rfl | h'
        · exact ⟨pats', List.mem_cons_self _ _,
            (provider_matches_iff rs pats' content url).mp hm⟩
        · obtain ⟨pats, hin, hex⟩ := ih.mp h'
          exact ⟨pats, List.mem_cons_of_mem _ hin, hex⟩
      · rintro ⟨pats, hin, hex⟩
        rcases List.mem_cons.mp hin with heq | hin'
        · exact (Prod.mk.injEq .. ▸ heq).1 ▸ List.mem_cons_self _ _
        · exact List.mem_cons_of_mem _ (ih.mpr ⟨pats, hin', hex⟩)
    · rw [if_neg hm]
      rw [ih]
      constructor
      · rintro ⟨pats, hin, hex⟩
        exact ⟨pats, List.mem_cons_of_mem _ hin, hex⟩
      · rintro ⟨pats, hin, hex⟩
        rcases List.mem_cons.mp hin with heq | hin'
        · exfalso
          have h1 : prov' = prov ∧ pats' = pats := by
            have := heq
            simp [Prod.ext_iff] at this
            exact ⟨this.1.symm, this.2.symm⟩
          apply hm
          rw [provider_matches_iff]
          exact h1.2 ▸ hex
        · exact ⟨pats, hin', hex⟩

/-- C1: a provider is in the analyzer's result set iff one of its patterns
matches the text or the source URL (via the case-insensitive matcher `rs`);
and once a pattern matches, the patterns after it are never consulted:
truncating the list right after a matching pattern leaves the per-provider
check unchanged. -/
theorem analyze_content_correct (rs : Str → Str → Bool)
    (catalog : List (String × List Str)) (content url : Str) :
    (∀ prov, prov ∈ analyze_content rs catalog content url ↔
      ∃ pats, (prov, pats) ∈ catalog ∧
        ∃ p ∈ pats, (rs p content || rs p url) = true) ∧
    (∀ pats₁ p pats₂, (rs p content || rs p url) = true →
      provider_matches rs (pats₁ ++ p :: pats₂) content url =
        provider_matches rs (pats₁ ++ [p]) content url) := by
  constructor
  · intro prov
    exact mem_analyze_content rs catalog content url prov
  · intro pats₁ p pats₂ hp
    induction pats₁ with
    | nil => simp [provider_matches, hp]
    | cons q rest ih =>
      unfold provider_matches
      simp only [List.cons_append]
      by_cases hq : (rs q content || rs q url) = true
      · simp [hq]
      · simp only [hq, if_neg, Bool.false_eq_true]
        exact ih

theorem analyze_content_correct_witness :
    "Duo" ∈ analyze_content substr_search
      [("Duo", ["duosecurity.com".toList, "duo-mfa".toList])]
      "visit DuoSecurity.com/widget today".toList "https://example.com".toList ∧
    provider_matches substr_search
      ["duosecurity.com".toList, "duo-mfa".toList, "x".toList]
      "visit DuoSecurity.com/widget today".toList "https://example.com".toList =
    provider_matches substr_search
      ["duosecurity.com".toList]
      "visit DuoSecurity.com/widget today".toList "https://example.com".toList := by
  constructor
  · exact ((analyze_content_correct substr_search
      [("Duo", ["duosecurity.com".toList, "duo-mfa".toList])]
      "visit DuoSecurity.com/widget today".toList
      "https://example.com".toList).1 "Duo").mpr
      ⟨["duosecurity.com".toList, "duo-mfa".toList], by decide, by decide⟩
  · have := (analyze_content_correct substr_search
      [("Duo", ["duosecurity.com".toList, "duo-mfa".toList])]
      "visit DuoSecurity.com/widget today".toList
      "https://example.com".toList).2
      [] "duosecurity.com".toList ["duo-mfa".toList, "x".toList] (by decide)
    simpa using this

/-- C8: the analyzer is deterministic (re-running on identical inputs yields
the identical set — definitional for a pure function) and order-independent:
permuting the catalog's providers permutes the result list, hence yields the
same result set. -/
theorem analyze_content_algebraic (rs : Str → Str → Bool) (content url : Str) :
    (∀ catalog, analyze_content rs catalog content url =
      analyze_content rs catalog content url) ∧
    (∀ cat₁ cat₂ : List (String × List Str), cat₁.Perm cat₂ →
      (analyze_content rs cat₁ content url).Perm
        (analyze_content rs cat₂ content url)) := by
  refine ⟨fun _ => rfl, fun cat₁ cat₂ hperm => ?_⟩
  rw [analyze_content_eq_filter, analyze_content_eq_filter]
  exact (hperm.filter _).map _

theorem analyze_content_algebraic_witness :
    (analyze_content substr_search
      [("Duo", ["duo".toList]), ("Okta", ["okta".toList])]
      "duo and okta".toList "https://example.com".toList).Perm
    (analyze_content substr_search
      [("Okta", ["okta".toList]), ("Duo", ["duo".toList])]
      "duo and okta".toList "https://example.com".toList) := by
  exact (analyze_content_algebraic substr_search
    "duo and okta".toList "https://example.com".toList).2
    [("Duo", ["duo".toList]), ("Okta", ["okta".toList])]
    [("Okta", ["okta".toList]), ("Duo", ["duo".toList])]
    (List.Perm.swap _ _ _)

/-- C9: the analyzer's result set only contains names of providers present in
the catalog, and the catalog state is returned unchanged by an analysis run
(it is only ever read). -/
theorem analyze_content_subset (rs : Str → Str → Bool)
    (catalog : List (String × List Str)) (content url : Str) :
    (∀ prov, prov ∈ analyze_content rs catalog content url →
      prov ∈ catalog.map Prod.fst) ∧
    (analyze_content_run rs catalog content url).2 = catalog := by
  refine ⟨fun prov h => ?_, rfl⟩
  obtain ⟨pats, hin, _⟩ := (mem_analyze_content rs catalog content url prov).mp h
  exact List.mem_map.mpr ⟨(prov, pats), hin, rfl⟩

theorem analyze_content_subset_witness :
    "Duo" ∈ ([("Duo", ["duo".toList])].map Prod.fst) := by
  exact (analyze_content_subset substr_search [("Duo", ["duo".toList])]
    "use duo now".toList "https://example.com".toList).1 "Duo" (by decide)

/-! ## Target Session (`process_url`, scepter.py lines 54-94)

The Playwright engine is external; its behavior for one target is a record:
context creation either succeeds or raises, navigation (`page.goto`) either
times out (`PlaywrightTimeoutError`), raises some other exception, or returns
a response with status and headers, and each in-page script fetch
independently returns a text or raises with a message — exactly the
capability surface the session consumes. -/

theorem mem_set_update (s t : List String) (x : String) :
    x ∈ set_update s t ↔ x ∈ s ∨ x ∈ t := by
  by_cases hx : x ∈ s
  · simp [set_update, hx]
  · simp [set_update, hx, List.mem_filter]

theorem process_js_mem (rs : Str → Str → Bool) (catalog : List (String × List Str))
    (fetch : Str → Except Str Str) (verbose : Bool) (jsUrls : List Str) :
    ∀ (detected : List String) (jsAcc errAcc : List Str) (p : String),
      p ∈ (process_js rs catalog fetch verbose jsUrls detected jsAcc errAcc).1 ↔
        p ∈ detected ∨ ∃ js ∈ jsUrls, ∃ txt, fetch js = Except.ok txt ∧
          p ∈ analyze_content rs catalog txt js := by
  induction jsUrls with
  | nil => intro detected jsAcc errAcc p; simp [process_js]
  | cons js rest ih =>
    intro detected jsAcc errAcc p
    unfold process_js
    match hf : fetch js with
    | Except.ok txt =>
      rw [ih, mem_set_update]
      constructor
      · rintro ((hd | ha) | ⟨js', hjs', txt', hok, hmem⟩)
        · exact Or.inl hd
        · exact Or.inr ⟨js, List.mem_cons_self _ _, txt, hf, ha⟩
        · exact Or.inr ⟨js', List.mem_cons_of_mem _ hjs', txt', hok, hmem⟩
      · rintro (hd | ⟨js', hjs', txt', hok, hmem⟩)
        · exact Or.inl (Or.inl hd)
        · rcases List.mem_cons.mp hjs' with rfl | hjs''
          · have : txt' = txt := by
              rw [hf] at hok
              exact (Except.ok.injEq .. ▸ hok.symm)
            exact Or.inl (Or.inr (this ▸ hmem))
          · exact Or.inr ⟨js', hjs'', txt', hok, hmem⟩
    | Except.error e =>
      rw [ih]
      constructor
      · rintro (hd | ⟨js', hjs', txt', hok, hmem⟩)
        · exact Or.inl hd
        · exact Or.inr ⟨js', List.mem_cons_of_mem _ hjs', txt', hok, hmem⟩
      · rintro (hd | ⟨js', hjs', txt', hok, hmem⟩)
        · exact Or.inl hd
        · rcases List.mem_cons.mp hjs' with rfl | hjs''
          · rw [hf] at hok; exact absurd hok (by simp)
          · exact Or.inr ⟨js', hjs'', txt', hok, hmem⟩

theorem process_js_errors (rs : Str → Str → Bool) (catalog : List (String × List Str))
    (fetch : Str → Except Str Str) (verbose : Bool) (jsUrls : List Str) :
    ∀ (detected : List String) (jsAcc errAcc : List Str),
      (process_js rs catalog fetch verbose jsUrls detected jsAcc errAcc).2.2 =
        errAcc ++ (if verbose then jsUrls.filterMap (fetch_err_of fetch) else []) := by
  induction jsUrls with
  | nil => intro detected jsAcc errAcc; simp [process_js]
  | cons js rest ih =>
    intro detected jsAcc errAcc
    unfold process_js
    match hf : fetch js with
    | Except.ok txt =>
      rw [ih]
      simp [List.filterMap_cons, fetch_err_of, hf]
    | Except.error e =>
      rw [ih]
      cases verbose with
      | false => simp
      | true => simp [List.filterMap_cons, fetch_err_of, hf]

/-- C4 (evaluation of the slip): when browser-context creation itself fails,
`process_url` does not return an outcome — the `finally` block references the
unassigned `context` variable and the session raises. -/
theorem process_url_ctx_creation_raises :
    process_url substr_search []
      { newContextOk := false, nav := NavResult.timeout, content := [],
        jsUrls := [], fetch := fun _ => Except.error [] }
      false "example.com".toList = Except.error unbound_local_msg := rfl

/-- C5: when navigation times out (context creation having succeeded), the
outcome carries the normalized URL, an empty detected-provider set, and
exactly the timeout error — no content or script analysis happens; and each
target's slot in the run depends only on that target's own URL and engine
behavior, so one target's timeout leaves every other slot unchanged. -/
theorem process_url_timeout (rs : Str → Str → Bool)
    (catalog : List (String × List Str)) (beh : EngineBehavior)
    (verbose : Bool) (u : Str)
    (hctx : beh.newContextOk = true) (hnav : beh.nav = NavResult.timeout) :
    process_url rs catalog beh verbose u =
      Except.ok (ensure_url_scheme u, [],
        ⟨none, none, [], [timeout_err_msg (ensure_url_scheme u)]⟩) ∧
    (∀ (ts₁ ts₂ : List (Str × EngineBehavior)) (i : Nat),
      ts₁[i]? = ts₂[i]? →
      (main_results rs catalog ts₁ verbose)[i]? =
        (main_results rs catalog ts₂ verbose)[i]?) := by
  constructor
  · unfold process_url
    rw [hctx, hnav]
    simp
  · intro ts₁ ts₂ i h
    unfold main_results
    rw [List.getElem?_map, List.getElem?_map, h]

theorem process_url_timeout_witness :
    process_url substr_search []
      { newContextOk := true, nav := NavResult.timeout, content := [],
        jsUrls := [], fetch := fun _ => Except.error [] }
      false "example.com".toList =
    Except.ok ("https://example.com".toList, [],
      ⟨none, none, [],
       [timeout_err_msg "https://example.com".toList]⟩) := by
  have h := (process_url_timeout substr_search []
    { newContextOk := true, nav := NavResult.timeout, content := [],
      jsUrls := [], fetch := fun _ => Except.error [] }
    false "example.com".toList rfl rfl).1
  rw [h]
  have : ensure_url_scheme "example.com".toList = "https://example.com".toList := by decide
  rw [this]

/-- C6: on a successful page load, the detected-provider set is exactly the
union of the analyzer's results on the page content and on every script whose
fetch succeeded — a fetch failure on one script URL neither discards the
page-content analysis nor blocks the scripts after it. -/
theorem process_url_success_providers (rs : Str → Str → Bool)
    (catalog : List (String × List Str)) (beh : EngineBehavior)
    (verbose : Bool) (u : Str) (st : Nat) (hd : List (Str × Str))
    (hctx : beh.newContextOk = true) (hnav : beh.nav = NavResult.success st hd) :
    ∀ p, p ∈ providers_of (process_url rs catalog beh verbose u) ↔
      (p ∈ analyze_content rs catalog beh.content (ensure_url_scheme u) ∨
       ∃ js ∈ beh.jsUrls, ∃ txt, beh.fetch js = Except.ok txt ∧
         p ∈ analyze_content rs catalog txt js) := by
  intro p
  unfold process_url
  rw [hctx, hnav]
  simp only [if_true]
  unfold providers_of
  simp only
  rw [process_js_mem, mem_set_update]
  simp

theorem process_url_success_providers_witness :
    "Okta" ∈ providers_of (process_url substr_search duo_okta_catalog
      mixed_fetch_behavior false "example.com".toList) := by
  exact (process_url_success_providers substr_search duo_okta_catalog
    mixed_fetch_behavior false "example.com".toList 200 [] rfl rfl "Okta").mpr
    (Or.inr ⟨"https://cdn.example/ok.js".toList, by decide,
      "window.OktaSignIn = true;".toList, rfl, by decide⟩)

/-- C2 counterexample: with verbose off, the failing script fetch leaves the
outcome's `errors` empty (the append is guarded by `if verbose:`), so the
text report's Status column reads `"Success"`, not `"Failed"` with one
errors entry as the claim states. -/
theorem script_fetch_error_dropped :
    (debug_of (process_url substr_search [] one_bad_fetch_behavior false
      "example.com".toList)).errors = [] ∧
    report_status (debug_of (process_url substr_search [] one_bad_fetch_behavior
      false "example.com".toList)) = "Success" ∧
    ¬ ((debug_of (process_url substr_search [] one_bad_fetch_behavior false
        "example.com".toList)).errors.length = 1 ∧
       report_status (debug_of (process_url substr_search [] one_bad_fetch_behavior
        false "example.com".toList)) = "Failed") := by
  refine ⟨rfl, rfl, ?_⟩
  rintro ⟨h1, _⟩
  exact absurd h1 (by decide)

/-- C2 amended: script-fetch failures reach `errors` only when verbose is on
(then one entry per failing script, in script order), while navigation-level
failures (timeout or any other navigation exception) are recorded in `errors`
regardless of the verbose flag; so with verbose off a target with a
successful page load and a failing script fetch has empty `errors` and Status
`"Success"`. -/
theorem process_url_fetch_errors (rs : Str → Str → Bool)
    (catalog : List (String × List Str)) (beh : EngineBehavior) (u : Str)
    (st : Nat) (hd : List (Str × Str))
    (hctx : beh.newContextOk = true) (hnav : beh.nav = NavResult.success st hd) :
    (debug_of (process_url rs catalog beh true u)).errors =
      beh.jsUrls.filterMap (fetch_err_of beh.fetch) ∧
    (debug_of (process_url rs catalog beh false u)).errors = [] ∧
    report_status (debug_of (process_url rs catalog beh false u)) = "Success" ∧
    (∀ beh' : EngineBehavior, beh'.newContextOk = true →
      (beh'.nav = NavResult.timeout ∨ (∃ e, beh'.nav = NavResult.failure e)) →
      (debug_of (process_url rs catalog beh' true u)).errors =
        (debug_of (process_url rs catalog beh' false u)).errors ∧
      (debug_of (process_url rs catalog beh' false u)).errors ≠ []) := by
  have herr : ∀ v : Bool, (debug_of (process_url rs catalog beh v u)).errors =
      if v then beh.jsUrls.filterMap (fetch_err_of beh.fetch) else [] := by
    intro v
    unfold process_url
    rw [hctx, hnav]
    simp only [if_true]
    unfold debug_of
    simp only
    rw [process_js_errors]
    simp
  refine ⟨by simpa using herr true, by simpa using herr false, ?_, ?_⟩
  · have h0 := herr false
    simp only [if_neg] at h0
    simp [report_status, h0]
  · intro beh' hctx' hnav'
    rcases hnav' with ht | ⟨e, he⟩
    · unfold process_url debug_of
      rw [hctx', ht]
      simp
    · unfold process_url debug_of
      rw [hctx', he]
      simp

theorem process_url_fetch_errors_witness :
    (debug_of (process_url substr_search [] one_bad_fetch_behavior true
      "example.com".toList)).errors =
      [fetch_err_msg "https://cdn.example/a.js".toList "net::ERR_FAILED".toList] ∧
    (debug_of (process_url substr_search [] one_bad_fetch_behavior false
      "example.com".toList)).errors = [] := by
  have h := process_url_fetch_errors substr_search [] one_bad_fetch_behavior
    "example.com".toList 200 [] rfl rfl
  exact ⟨by rw [h.1]; rfl, h.2.1⟩

theorem gather_results_length (rl : List (Except Str (Str × List String × DebugInfo)))
    (l : List (Str × List String × DebugInfo)) (h : gather_results rl = Except.ok l) :
    l.length = rl.length := by
  induction rl generalizing l with
  | nil =>
    simp [gather_results] at h
    simp [h]
  | cons r rest ih =>
    match r with
    | Except.error e => simp [gather_results] at h
    | Except.ok a =>
      unfold gather_results at h
      match hg : gather_results rest with
      | Except.error e => rw [hg] at h; simp [Except.map] at h
      | Except.ok l' =>
        rw [hg] at h
        simp [Except.map] at h
        subst h
        simp [ih l' hg]

theorem dict_insert_length {β : Type} (d : List (Str × β)) (k : Str) (v : β) :
    (dict_insert d k v).length ≤ d.length + 1 := by
  unfold dict_insert
  split
  · simp
  · simp

theorem foldl_dict_insert_length {β : Type} (l : List (Str × β)) :
    ∀ d : List (Str × β),
      (l.foldl (fun d p => dict_insert d p.1 p.2) d).length ≤ d.length + l.length := by
  induction l with
  | nil => intro d; simp
  | cons p rest ih =>
    intro d
    simp only [List.foldl_cons, List.length_cons]
    have h1 := ih (dict_insert d p.1 p.2)
    have h2 := dict_insert_length d p.1 p.2
    omega

/-- C3 counterexample: two identical input URLs yield two outcomes, but the
emitted JSON report is a dict keyed by the normalized URL, so the duplicates
collapse into a single entry — its size is 1, not the input length 2. -/
theorem report_dedup_json :
    (main_results substr_search [] dup_targets false).length = 2 ∧
    json_report_of substr_search [] dup_targets false =
      Except.ok [("https://example.com".toList, ([], ⟨none, none, [], []⟩))] ∧
    json_report_size (json_report_of substr_search [] dup_targets false) = 1 ∧
    ¬ (json_report_size (json_report_of substr_search [] dup_targets false) = 2) := by
  refine ⟨rfl, rfl, rfl, ?_⟩
  intro h
  exact absurd h (by decide)

/-- C3 amended: every input URL (duplicates included) yields exactly one
outcome, so the results sequence and the text report's table have exactly one
entry/row per input; the JSON report however is a dict keyed by the
normalized URL each session returns, so duplicate inputs — or distinct
inputs normalizing to the same URL — collapse to one entry, and its size is
only bounded above by the input count. -/
theorem report_per_input (rs : Str → Str → Bool) (catalog : List (String × List Str))
    (targets : List (Str × EngineBehavior)) (verbose : Bool) :
    (main_results rs catalog targets verbose).length = targets.length ∧
    (∀ l, gather_results (main_results rs catalog targets verbose) = Except.ok l →
      l.length = targets.length ∧
      (table_rows l).length = targets.length ∧
      (json_report l).length ≤ targets.length) := by
  have hlen : (main_results rs catalog targets verbose).length = targets.length := by
    unfold main_results
    simp
  refine ⟨hlen, fun l hl => ?_⟩
  have h1 : l.length = targets.length := by
    rw [gather_results_length _ l hl, hlen]
  refine ⟨h1, ?_, ?_⟩
  · unfold table_rows
    simp [h1]
  · have h2 := foldl_dict_insert_length l ([] : List (Str × (List String × DebugInfo)))
    unfold json_report dict_of
    simp at h2
    omega

theorem report_per_input_witness :
    (main_results substr_search [] dup_targets false).length = dup_targets.length ∧
    (table_rows
      [("https://example.com".toList, ([], ⟨none, none, [], []⟩)),
       ("https://example.com".toList, ([], ⟨none, none, [], []⟩))]).length =
      dup_targets.length := by
  have h := report_per_input substr_search [] dup_targets false
  exact ⟨h.1,
    (h.2 [("https://example.com".toList, ([], ⟨none, none, [], []⟩)),
          ("https://example.com".toList, ([], ⟨none, none, [], []⟩))] rfl).2.1⟩

end Scepter
